import Mathlib

/-!
Verification development for the tool-orchestration core of the AgentZer0
repository (src/client/mcp_client.py and src/client/language_model.py).

The Python code is shallowly embedded: strings are Lean `String`s scanned as
`List Char`; the Groq language model, the JSON parser and the tool servers are
oracles packaged in an `Env` record; `MCPClient.process_query` becomes a pure
state-transition loop over a `SessionState`.  Every definition mirrors the
corresponding Python source construct; line numbers in comments refer to
src/client/mcp_client.py unless stated otherwise.
-/

deriving instance DecidableEq for Except

/-- Python `\w` on the ASCII inputs considered here: letters, digits, `_`.  -/
def isPyWord (c : Char) : Bool := c.isAlphanum || c = '_'

/-- Python `str.strip` whitespace set (ASCII part). -/
def isPySpace (c : Char) : Bool :=
  c = ' ' || c = '\t' || c = '\n' || c = '\x0d' || c = '\x0c' || c = '\x0b'

/-- Strip leading and trailing whitespace, as Python `str.strip()`. -/
def pyStripL (s : List Char) : List Char :=
  ((s.dropWhile isPySpace).reverse.dropWhile isPySpace).reverse

/-- `String` wrapper for `pyStripL`. -/
def pyStrip (s : String) : String := ⟨pyStripL s.data⟩

/-- Is `p` a prefix of `s` (by character equality)?  -/
def isPre : List Char → List Char → Bool
  | [], _ => true
  | _ :: _, [] => false
  | p :: ps, c :: cs => p = c && isPre ps cs

/-- Drop the literal prefix `p` from `s`, failing when `s` does not start
with `p`. -/
def dropPre : List Char → List Char → Option (List Char)
  | [], s => some s
  | _ :: _, [] => none
  | p :: ps, c :: cs => if p = c then dropPre ps cs else none

/-- Does `needle` occur as a contiguous substring of `hay`?  Mirrors the
Python `in` operator on strings. -/
def subL : List Char → List Char → Bool
  | needle, [] => isPre needle []
  | needle, s@(_ :: rest) => isPre needle s || subL needle rest

/-- Python `needle in hay` for strings. -/
def substrOf (needle hay : String) : Bool := subL needle.data hay.data

/-- Python `hay.startswith(needle)`. -/
def pyStartsWith (hay needle : String) : Bool := isPre needle.data hay.data

/-- Python `str.lower()` (ASCII case). -/
def lowerStr (s : String) : String := ⟨s.data.map Char.toLower⟩

/-- Lazy `(.*?)` followed by the literal `close`, *without* an end anchor:
the match stops at the first occurrence of `close`, and `.` does not cross a
newline.  Returns the consumed middle and the remainder after `close`. -/
def lazyStarClose (close : List Char) : List Char → Option (List Char × List Char)
  | [] => if close = [] then some ([], []) else none
  | s@(c :: rest) =>
    if isPre close s then some ([], s.drop close.length)
    else if c = '\n' then none
    else (lazyStarClose close rest).map (fun p => (c :: p.1, p.2))

/-- Lazy `(.*?)` followed by the literal `close` and the `$` anchor: the
backtracking search succeeds exactly when the whole remaining input is
`middle ++ close` with no newline in `middle`. -/
def lazyStarCloseEnd (close : List Char) : List Char → Option (List Char)
  | [] => if close = [] then some [] else none
  | c :: r =>
    if c :: r = close then some []
    else if c = '\n' then none
    else (lazyStarCloseEnd close r).map (fun a => c :: a)

/-- One pseudo-call regex of mcp_client.py: a literal lead-in, one opening
character, and a closing literal; e.g. `<function=(\w+)\x7b(.*?)\x7d>` is
`⟨"<function=", open brace, "\x7d>"⟩`. -/
structure Pat where
  pre : List Char
  openc : Char
  close : List Char

/-- Pattern `<function=(\w+)\x7b(.*?)\x7d>` (line 441). -/
def patCurlyAngle : Pat := ⟨"<function=".data, '\x7b', "\x7d>".data⟩

/-- Pattern `<function=(\w+)\((.*?)\)>` (line 442). -/
def patParenAngle : Pat := ⟨"<function=".data, '(', ")>".data⟩

/-- Pattern `<function=(\w+)\((.*?)\)</function>` (line 443). -/
def patParenClosing : Pat := ⟨"<function=".data, '(', ")</function>".data⟩

/-- Pattern `function=(\w+)\((.*?)\)` (line 444). -/
def patBareParen : Pat := ⟨"function=".data, '(', ")".data⟩

/-- Pattern `function=(\w+)\x7b(.*?)\x7d` (line 445). -/
def patBareCurly : Pat := ⟨"function=".data, '\x7b', "\x7d".data⟩

/-- Match a pattern at the head of `s` with no end anchor: the literal
lead-in, then the greedy `(\w+)` (the maximal word run, which the following
non-word open character cannot shorten), the open character, and the lazy
middle up to the first `close`.  Returns `((name, args), rest)`. -/
def reHead (p : Pat) (s : List Char) : Option ((List Char × List Char) × List Char) :=
  match dropPre p.pre s with
  | none => none
  | some s1 =>
    let w := s1.takeWhile isPyWord
    let s2 := s1.drop w.length
    if w = [] then none
    else
      match s2 with
      | [] => none
      | c :: s3 =>
        if c = p.openc then
          (lazyStarClose p.close s3).map (fun q => ((w, q.1), q.2))
        else none

/-- Match a pattern anchored at both ends (`^ ... $`), as the first three
entries of `function_patterns` (lines 258-260) require. -/
def reEnd (p : Pat) (s : List Char) : Bool :=
  match dropPre p.pre s with
  | none => false
  | some s1 =>
    let w := s1.takeWhile isPyWord
    let s2 := s1.drop w.length
    if w = [] then false
    else
      match s2 with
      | [] => false
      | c :: s3 => c = p.openc && (lazyStarCloseEnd p.close s3).isSome

/-- The `is_just_function_text` test of `process_query` (lines 256-271):
after stripping, `re.match` one of the five `function_patterns`.  The first
three patterns carry a `$` anchor; the last two (lines 261-262) do not, so
they accept arbitrary trailing content. -/
def isJustFunctionText (t : String) : Bool :=
  let s := pyStripL t.data
  reEnd patCurlyAngle s || reEnd patParenAngle s || reEnd patParenClosing s ||
    (reHead patBareParen s).isSome || (reHead patBareCurly s).isSome

/-- Non-overlapping left-to-right `re.findall` for one pattern, with fuel
(the scan advances at least one character per step, so `s.length` suffices). -/
def findAllGo (p : Pat) : Nat → List Char → List (List Char × List Char)
  | 0, _ => []
  | _ + 1, [] => []
  | fuel + 1, s@(_ :: rest) =>
    match reHead p s with
    | some (g, r) => g :: findAllGo p fuel r
    | none => findAllGo p fuel rest

/-- `re.findall(pattern, text)` returning `(name, raw argument text)` pairs. -/
def findAllPat (p : Pat) (s : List Char) : List (String × String) :=
  (findAllGo p s.length s).map (fun g => (⟨g.1⟩, ⟨g.2⟩))

/-- The extraction loop of `process_query` (lines 440-452): run all five
patterns over the text in order and concatenate their matches, with no
deduplication. -/
def extractCalls (t : String) : List (String × String) :=
  [patCurlyAngle, patParenAngle, patParenClosing, patBareParen, patBareCurly].foldl
    (fun acc p => acc ++ findAllPat p t.data) []

/-- `re.sub(r'<function=\w+\x7b.*?\x7d>', '', content)` (line 283): remove
all non-overlapping curly-form pseudo-calls. -/
def removeAllGo (p : Pat) : Nat → List Char → List Char
  | 0, s => s
  | _ + 1, [] => []
  | fuel + 1, s@(c :: rest) =>
    match reHead p s with
    | some (_, r) => removeAllGo p fuel r
    | none => c :: removeAllGo p fuel rest

/-- `String` wrapper: remove every embedded curly-form pseudo-call. -/
def removeCurlyCalls (t : String) : String :=
  ⟨removeAllGo patCurlyAngle t.data.length t.data⟩

example : isJustFunctionText "<function=search\x7b\"query\":\"eth price\"\x7d>" = true := by decide
example : isJustFunctionText "hello there" = false := by decide
example : isJustFunctionText "function=search(x) and more prose" = true := by decide
example : extractCalls "<function=search\x7b\"q\":\"e\"\x7d>" =
    [("search", "\"q\":\"e\""), ("search", "\"q\":\"e\"")] := by decide
example : extractCalls "done" = [] := by decide
example : pyStrip "  a b \n" = "a b" := by decide
example : removeCurlyCalls "hi <function=f\x7b1\x7d> there" = "hi  there" := by decide

/-- Python `str.replace(pat, repl)`: non-overlapping left-to-right textual
replacement, fueled by the input length (each step consumes one character or
the whole of `pat`). -/
def replaceAllGo (pat repl : List Char) : Nat → List Char → List Char
  | 0, s => s
  | _ + 1, [] => []
  | fuel + 1, s@(c :: rest) =>
    if pat ≠ [] && isPre pat s then repl ++ replaceAllGo pat repl fuel (s.drop pat.length)
    else c :: replaceAllGo pat repl fuel rest

/-- `String` wrapper for `replaceAllGo`. -/
def replaceAllStr (s pat repl : String) : String :=
  ⟨replaceAllGo pat.data repl.data s.data.length s.data⟩

/-- `re.sub(r'(\w+):', r'"\1":', s)` (lines 333 and 511): quote each bare
word run that is immediately followed by a colon. -/
def quoteKeysGo : Nat → List Char → List Char
  | 0, s => s
  | _ + 1, [] => []
  | fuel + 1, s@(c :: rest) =>
    let w := s.takeWhile isPyWord
    if w ≠ [] && (s.drop w.length).head? = some ':' then
      '"' :: (w ++ '"' :: ':' :: quoteKeysGo fuel (s.drop (w.length + 1)))
    else c :: quoteKeysGo fuel rest

/-- `String` wrapper for `quoteKeysGo`. -/
def quoteBareKeys (s : String) : String := ⟨quoteKeysGo s.data.length s.data⟩

/-- The argument-shape repair of lines 313-324 (identical at 491-502): keep
JSON-looking text, wrap a bare quoted string as a `query` object, otherwise
wrap the raw text in braces; then undo escaped quotes. -/
def fixArgsStr (s : String) : String :=
  let s1 := if pyStartsWith s "\x7b" then s
    else if pyStartsWith s "\"" || pyStartsWith s "'" then
      "\x7b\"query\": " ++ s ++ "\x7d"
    else "\x7b" ++ s ++ "\x7d"
  replaceAllStr (replaceAllStr s1 "\\\"" "\"") "\\'" "'"

/-- Tool routing table: one connected server with the names of its tools, in
registration order (`MCPClient.tools_by_server`, an insertion-ordered dict). -/
structure ServerTools where
  sname : String
  tools : List String
deriving DecidableEq

/-- `MCPClient._find_server_for_tool` (lines 669-682): scan servers in
registration order and return the first one providing the tool. -/
def findServerForTool : List ServerTools → String → Option String
  | [], _ => none
  | s :: rest, tn => if tn ∈ s.tools then some s.sname else findServerForTool rest tn

/-- One element of a list-shaped tool result, tagged by the runtime-type
tests `_format_tool_result` performs on it (lines 707-724). -/
inductive RawItem where
  | errItem (txt : Option String)
  | textAttr (t : String)
  | textKey (t : String)
  | plain (s : Option String)
deriving DecidableEq

/-- A raw tool-call result, tagged by the runtime-type tests of
`_format_tool_result` (lines 684-739): `null` is Python `None`; `errDict` a
dict with `type == 'error'`; `items` a list; `dictWithText` a dict holding
`"text"`; `dictOther` any other dict (with the `json.dumps` attempt and the
`str` fallback, either of which may fail); `other` any remaining value. -/
inductive RawResult where
  | null
  | str (s : String)
  | errDict (txt : Option String)
  | items (l : List RawItem)
  | dictWithText (t : String)
  | dictOther (dumped : Option String) (srepr : Option String)
  | other (srepr : Option String)
deriving DecidableEq

/-- Render one list item (lines 709-723). -/
def formatItem : RawItem → String
  | .errItem txt => "Error: " ++ txt.getD "Unknown error"
  | .textAttr t => t
  | .textKey t => t
  | .plain (some s) => s
  | .plain none => "[Unprintable item]"

/-- Join rendered items with newlines (line 724). -/
def joinNL : List String → String
  | [] => ""
  | [s] => s
  | s :: rest => s ++ "\n" ++ joinNL rest

/-- `MCPClient._format_tool_result` (lines 684-739). -/
def formatToolResult : RawResult → String
  | .null => ""
  | .str s => s
  | .errDict txt => "Error: " ++ txt.getD "Unknown error"
  | .items l => joinNL (l.map formatItem)
  | .dictWithText t => t
  | .dictOther (some d) _ => d
  | .dictOther none (some s) => s
  | .dictOther none none => "[Unprintable content]"
  | .other (some s) => s
  | .other none => "[Unprintable content]"

/-- One structured tool call from the model (`tool_call.id`,
`tool_call.function.name`, `tool_call.function.arguments`). -/
structure ToolCall where
  tcid : String
  tcname : String
  args : String
deriving DecidableEq

/-- One model completion: the text content (`content or ""`) and the list of
structured tool calls (empty when absent). -/
structure LLMResponse where
  content : String
  toolCalls : List ToolCall
deriving DecidableEq

/-- Outcome of `LanguageModelClient.generate_completion`: a response, or the
exception the Groq call raised (carrying `str(e)`). -/
inductive LLMResult where
  | ok (r : LLMResponse)
  | err (msg : String)
deriving DecidableEq

/-- Outcome of `session.call_tool`: an exception (`str(e)`) or a raw result
(`result.content`). -/
inductive ExecOutcome where
  | raises (msg : String)
  | returns (raw : RawResult)
deriving DecidableEq

/-- The external collaborators of one `process_query` run: the language
model as a sequence of outcomes indexed by the number of completions already
requested, the connected servers with their tools, `json.loads` as a partial
oracle (`some v` = parses to value `v`, `none` = raises, with `jsonErrMsg`
giving `str` of the raised error), and the tool servers' call behavior. -/
structure Env where
  llm : Nat → LLMResult
  catalog : List ServerTools
  parseJson : String → Option String
  jsonErrMsg : String → String
  exec : String → String → String → ExecOutcome

/-- All tool names across servers, in registration order (the tool list
`MCPClient.all_tools` built by `initialize_servers`, lines 65-87). -/
def allToolNames (env : Env) : List String := (env.catalog.map ServerTools.tools).flatten

/-- The two-stage argument parse of lines 327-334 (identical at 505-512):
parse the repaired text; on failure quote bare keys and retry; a second
failure raises the decode error. -/
def repairAndParse (env : Env) (s : String) : Except String String :=
  let s1 := fixArgsStr s
  match env.parseJson s1 with
  | some v => .ok v
  | none =>
    match env.parseJson (quoteBareKeys s1) with
    | some v => .ok v
    | none => .error (env.jsonErrMsg (quoteBareKeys s1))

/-- Message roles used by `process_query`. -/
inductive Role where
  | system
  | user
  | assistant
  | tool
deriving DecidableEq

/-- One entry of `self.messages`. -/
structure Msg where
  role : Role
  content : String
  toolCalls : List ToolCall := []
  toolCallId : Option String := none
  mname : Option String := none
deriving DecidableEq

/-- Build a plain assistant message. -/
def mkAssistant (c : String) : Msg := { role := Role.assistant, content := c }

/-- Build a plain user message. -/
def mkUser (c : String) : Msg := { role := Role.user, content := c }

/-- Boolean test for the `tool` role. -/
def roleIsTool (m : Msg) : Bool :=
  match m.role with
  | Role.tool => true
  | _ => false

/-- The keyword heuristic of lines 352-358 deciding that a structured-path
result counts as successfully retrieved data. -/
def isSuccessStructured (content : String) : Bool :=
  content ≠ "" && !pyStartsWith content "Error" &&
    (substrOf "price" (lowerStr content) ||
     substrOf "Current price" content ||
     (substrOf "value" (lowerStr content) &&
       (["btc", "bitcoin", "eth", "ethereum", "bnb", "sol", "solana", "xrp"].any
         (fun c => substrOf c (lowerStr content)))) ||
     substrOf "search results" (lowerStr content) ||
     substrOf "research" (lowerStr content))

/-- `ValueError` text of lines 339 and 517. -/
def noServerMsg (tn : String) : String :=
  "Tool '" ++ tn ++ "' not found in any connected server"

/-- Error content substituted for a raised tool call (lines 365 and 537). -/
def execErrContent (tn em : String) : String :=
  "Error: The " ++ tn ++ " tool encountered an error. Please try a different approach. Error details: " ++ em

/-- Per-session mutable state of `process_query`: the message log, the two
flags of lines 240-241, plus two instrumentation traces — the tool
invocations actually performed (server, tool, parsed arguments, in order)
and one log entry per language-model request (`some names` = called with
that tool catalog, `none` = called with `tools=None`). -/
structure SessionState where
  messages : List Msg
  hadToolFailure : Bool
  haveFunctionText : Bool
  invocations : List (String × String × String)
  llmLog : List (Option (List String))
deriving DecidableEq

/-- Result of handling one structured tool call (lines 306-405): the
appended message, the invocation performed (if any), whether the call
avoided an exception (`all_tools_succeeded` contribution) and whether its
result passed the success heuristic. -/
structure CallOut where
  msg : Msg
  invs : List (String × String × String)
  okCall : Bool
  succ : Bool
deriving DecidableEq

/-- The per-call tool-result message of lines 369-381: a degraded plain
`user` echo once a failure has occurred, a formal `tool` message otherwise. -/
def structuredResultMsg (hadFail : Bool) (tc : ToolCall) (content : String) : Msg :=
  if hadFail then { role := Role.user, content := "Tool " ++ tc.tcname ++ " returned: " ++ content }
  else { role := Role.tool, content := content, toolCallId := some tc.tcid, mname := some tc.tcname }

/-- The per-call error message of lines 389-402. -/
def structuredErrMsg (hadFail : Bool) (tc : ToolCall) (em : String) : Msg :=
  if hadFail then { role := Role.user, content := "Error using tool " ++ tc.tcname ++ ": " ++ em }
  else { role := Role.tool, content := "Error: " ++ em, toolCallId := some tc.tcid, mname := some tc.tcname }

/-- Handle one structured tool call (lines 306-405): repair and parse the
arguments, resolve the owning server, invoke the tool, normalize the result,
and build the appended message. -/
def structuredOne (env : Env) (hadFail : Bool) (tc : ToolCall) : CallOut :=
  match repairAndParse env tc.args with
  | .error em => ⟨structuredErrMsg hadFail tc em, [], false, false⟩
  | .ok args =>
    match findServerForTool env.catalog tc.tcname with
    | none => ⟨structuredErrMsg hadFail tc (noServerMsg tc.tcname), [], false, false⟩
    | some sv =>
      match env.exec sv tc.tcname args with
      | .raises em =>
        ⟨structuredResultMsg hadFail tc (execErrContent tc.tcname em), [(sv, tc.tcname, args)], false, false⟩
      | .returns raw =>
        let content := formatToolResult raw
        ⟨structuredResultMsg hadFail tc content, [(sv, tc.tcname, args)], true, isSuccessStructured content⟩

/-- Accumulated effect of one dispatch batch. -/
structure BatchOut where
  msgs : List Msg
  invs : List (String × String × String)
  allOk : Bool
  haveSucc : Bool
deriving DecidableEq

/-- The structured dispatch loop (line 306): calls are handled in request
order; `all_tools_succeeded` starts true and is cleared by any exception;
`have_successful_results` starts false and is set by any heuristic hit. -/
def structuredBatch (env : Env) (hadFail : Bool) : List ToolCall → BatchOut
  | [] => ⟨[], [], true, false⟩
  | tc :: rest =>
    let o := structuredOne env hadFail tc
    let r := structuredBatch env hadFail rest
    ⟨o.msg :: r.msgs, o.invs ++ r.invs, o.okCall && r.allOk, o.succ || r.haveSucc⟩

/-- Result of handling one text-extracted call (lines 479-566). `raised`
records that the call ended in the outer `except` (parse failure or unknown
tool), in which case the short-circuit check of line 549 is skipped. -/
structure TextCallOut where
  msg : Msg
  invs : List (String × String × String)
  okCall : Bool
  succ : Bool
  tcontent : String
  raised : Bool
deriving DecidableEq

/-- Handle one text-extracted call (lines 479-566): strip and repair the raw
argument text, parse, resolve, invoke; the result message is always a plain
`user` echo here. -/
def textOne (env : Env) (tn ras : String) : TextCallOut :=
  match repairAndParse env (pyStrip ras) with
  | .error em =>
    ⟨mkUser ("Error using tool '" ++ tn ++ "': " ++ em), [], false, false, "", true⟩
  | .ok args =>
    match findServerForTool env.catalog tn with
    | none =>
      ⟨mkUser ("Error using tool '" ++ tn ++ "': " ++ noServerMsg tn), [], false, false, "", true⟩
    | some sv =>
      match env.exec sv tn args with
      | .raises em =>
        let content := execErrContent tn em
        ⟨mkUser ("Tool '" ++ tn ++ "' returned: " ++ content), [(sv, tn, args)], false, false, content, false⟩
      | .returns raw =>
        let content := formatToolResult raw
        ⟨mkUser ("Tool '" ++ tn ++ "' returned: " ++ content), [(sv, tn, args)], true,
          content ≠ "" && !pyStartsWith content "Error", content, false⟩

/-- Accumulated effect of the text dispatch loop; `returned` set means the
early `return self.messages` of line 556 fired (only reachable when the
caller passes `isJust = true`, which `process_query` never does here). -/
structure TextBatchOut where
  msgs : List Msg
  invs : List (String × String × String)
  allOk : Bool
  returned : Bool
deriving DecidableEq

/-- The text dispatch loop (lines 479-566). `acc` threads
`have_successful_results`; after each non-raised call the code checks
`is_just_function_text and have_successful_results` and, when true, appends
the tool content as a final assistant message and returns at once. -/
def textBatch (env : Env) (isJust : Bool) : Bool → List (String × String) → TextBatchOut
  | _, [] => ⟨[], [], true, false⟩
  | acc, (tn, ras) :: rest =>
    let o := textOne env tn ras
    let acc' := acc || o.succ
    if !o.raised && isJust && acc' then
      ⟨[o.msg, mkAssistant o.tcontent], o.invs, o.okCall, true⟩
    else
      let r := textBatch env isJust acc' rest
      ⟨o.msg :: r.msgs, o.invs ++ r.invs, o.okCall && r.allOk, r.returned⟩

/-- How one loop iteration ends: fall through to the next iteration
(`continue`), `break`, or `return self.messages` from inside the body. -/
inductive IterOut where
  | cont (st : SessionState)
  | brk (st : SessionState)
  | ret (st : SessionState)
deriving DecidableEq

/-- The state carried by an iteration outcome. -/
def IterOut.state : IterOut → SessionState
  | .cont st => st
  | .brk st => st
  | .ret st => st

/-- Default assistant text of line 289. -/
def defaultTryStr : String := "I'll try to get that information for you."

/-- The assistant message the structured branch records (lines 283-299):
its content is the response text cleaned of curly pseudo-calls; after a
failure it degrades to content-only (with a default when empty), otherwise
it carries the structured tool calls. -/
def assistantEcho (hadFail : Bool) (content : String) (calls : List ToolCall) : Msg :=
  let clean := pyStrip (removeCurlyCalls content)
  if hadFail then mkAssistant (if clean = "" then defaultTryStr else clean)
  else { role := Role.assistant, content := clean, toolCalls := calls }

/-- Line 407-409: a batch with any exception sets the failure flag; it is
never cleared. -/
def updateFailFlag (st : SessionState) (allOk : Bool) : SessionState :=
  if allOk then st else { st with hadToolFailure := true }

/-- The success scan of lines 413-418: the most recent `tool` message whose
content does not contain `Error`. -/
def successScan (msgs : List Msg) : Option Msg :=
  msgs.reverse.find? (fun m => roleIsTool m && !substrOf "Error" m.content)

/-- Lines 411-431: when the heuristic fired, replay the scanned result (if
non-empty) as the final answer and break; otherwise continue. -/
def structuredFinish (haveSucc : Bool) (st : SessionState) : IterOut :=
  if haveSucc then
    match successScan st.messages with
    | some m =>
      if m.content ≠ "" then
        IterOut.brk { st with messages := st.messages ++ [mkAssistant m.content] }
      else IterOut.cont st
    | none => IterOut.cont st
  else IterOut.cont st

/-- The structured tool-call branch of the loop (lines 277-431): append the
assistant echo and the batch results, update the failure flag, then finish. -/
def structuredPath (env : Env) (st : SessionState) (content : String)
    (calls : List ToolCall) : IterOut :=
  structuredFinish (structuredBatch env st.hadToolFailure calls).haveSucc
    (updateFailFlag
      { st with
          messages := st.messages ++ assistantEcho st.hadToolFailure content calls ::
            (structuredBatch env st.hadToolFailure calls).msgs,
          invocations := st.invocations ++ (structuredBatch env st.hadToolFailure calls).invs }
      (structuredBatch env st.hadToolFailure calls).allOk)

/-- The embedded-text branch of the loop (lines 433-573), reached only when
the response carries no structured calls and is not pure pseudo-call text:
extract candidate calls; with none, record the assistant message and break;
otherwise record it, dispatch the batch and continue (or propagate the early
return). -/
def textPath (env : Env) (st : SessionState) (content : String) : IterOut :=
  let fm := extractCalls content
  if fm.isEmpty then
    IterOut.brk { st with messages := st.messages ++ [mkAssistant content] }
  else
    let tb := textBatch env false false fm
    let st1 : SessionState :=
      { st with messages := st.messages ++ mkAssistant content :: tb.msgs,
                invocations := st.invocations ++ tb.invs }
    if tb.returned then IterOut.ret st1
    else if tb.allOk then IterOut.cont st1
    else IterOut.cont { st1 with hadToolFailure := true }

/-- Assistant notice of lines 578-581. -/
def errNotice (em : String) : String :=
  "I encountered an error processing your request. Let me try to answer without using tools: " ++ em

/-- Apology of lines 602-605. -/
def apologyStr : String :=
  "I'm sorry, I'm having trouble processing your request right now. Please try again later."

/-- One iteration of the conversation loop (lines 245-606).  The main model
request records `some (allToolNames env)` in the call log; when it raises,
the handler at lines 575-606 appends a notice, makes exactly one fallback
request with `tools=None` (logged as `none`) and breaks either way.  When
the response is nothing but pseudo-call text (lines 256-275), the whole
`else` block of line 276 — including both dispatch paths — is skipped and
the loop continues with only the `have_function_text` flag set. -/
def iterationBody (env : Env) (st : SessionState) : IterOut :=
  let idx := st.llmLog.length
  let st0 : SessionState := { st with llmLog := st.llmLog ++ [some (allToolNames env)] }
  match env.llm idx with
  | .err em =>
    let st1 : SessionState :=
      { st0 with messages := st0.messages ++ [mkAssistant (errNotice em)],
                 llmLog := st0.llmLog ++ [none] }
    match env.llm (idx + 1) with
    | .ok r => IterOut.brk { st1 with messages := st1.messages ++ [mkAssistant r.content] }
    | .err _ => IterOut.brk { st1 with messages := st1.messages ++ [mkAssistant apologyStr] }
  | .ok r =>
    if isJustFunctionText r.content then
      IterOut.cont { st0 with haveFunctionText := true }
    else if r.toolCalls.isEmpty then textPath env st0 r.content
    else structuredPath env st0 r.content r.toolCalls

/-- How the `for` loop of line 245 was left. -/
inductive ExitKind where
  | completedK
  | brokeK
  | returnedK
deriving DecidableEq

/-- Run the loop: `rem` iterations remain and `iter` is the current value of
the Python loop variable.  Returns the state, the final value of `iteration`
(`iter - 1` on normal completion, matching `range`), and how the loop was
left. -/
def runLoop (env : Env) : Nat → Nat → SessionState → SessionState × Nat × ExitKind
  | 0, iter, st => (st, iter - 1, ExitKind.completedK)
  | rem + 1, iter, st =>
    match iterationBody env st with
    | IterOut.ret st' => (st', iter, ExitKind.returnedK)
    | IterOut.brk st' => (st', iter, ExitKind.brokeK)
    | IterOut.cont st' => runLoop env rem (iter + 1) st'

/-- Generic fallback of lines 634-637. -/
def genericFallback : String :=
  "I've made several attempts to retrieve information but encountered some issues. Could you provide more details about what you're looking for?"

/-- Keyword test of line 622 on one message. -/
def keywordCap (m : Msg) : Bool :=
  substrOf "search results" (lowerStr m.content) || substrOf "research" (lowerStr m.content)

/-- The iteration-cap synthesis (lines 608-637): scan the log in reverse for
a non-error `tool` message; if that yields nothing truthy, scan in reverse
for any content mentioning search results or research; otherwise fall back
to the generic message. -/
def capContent (msgs : List Msg) : String :=
  let c1 := ((msgs.reverse.find? (fun m => roleIsTool m && !substrOf "Error" m.content)).map
    Msg.content).getD ""
  let c := if c1 = "" then
      ((msgs.reverse.find? keywordCap).map Msg.content).getD ""
    else c1
  if c = "" then genericFallback else c

/-- Finish a run started in state `st`: run the loop, then apply the cap
synthesis exactly when the loop variable ended at `max_iterations - 1 = 14`
without an early `return` (lines 608-639). -/
def processFrom (env : Env) (rem iter : Nat) (st : SessionState) : SessionState :=
  match runLoop env rem iter st with
  | (s, _, ExitKind.returnedK) => s
  | (s, li, _) =>
    if li = 14 then { s with messages := s.messages ++ [mkAssistant (capContent s.messages)] }
    else s

/-- `MCPClient.process_query` (lines 208-657): seed the log with the user
message (line 237) and drive up to 15 iterations. -/
def processQuery (env : Env) (query : String) : SessionState :=
  processFrom env 15 0 ⟨[mkUser query], false, false, [], []⟩

/-- Environment for the structured-call scenario: the first completion
carries a well-formed structured call to `search` whose content, as
`generate_completion` actually produces it (language_model.py lines
224-233), is exactly the appended pseudo-call text; the second completion is
plain text. -/
def envStruct : Env where
  llm := fun n =>
    if n = 0 then
      LLMResult.ok ⟨"<function=search\x7b\"query\":\"x\"\x7d>",
        [⟨"id1", "search", "\x7b\"query\":\"x\"\x7d"⟩]⟩
    else LLMResult.ok ⟨"done", []⟩
  catalog := [⟨"s1", ["search"]⟩]
  parseJson := fun s => if s = "\x7b\"query\":\"x\"\x7d" then some "query=x" else none
  jsonErrMsg := fun _ => "bad json"
  exec := fun _ _ _ => ExecOutcome.returns (RawResult.str "ok")

example : processQuery envStruct "hi" =
    ⟨[mkUser "hi", mkAssistant "done"], false, true, [],
      [some ["search"], some ["search"]]⟩ := by decide

/-- Environment for the cap scenario: every completion is prose with an
embedded bare-form pseudo-call whose argument text never parses, so every
turn fails and the loop runs to the iteration cap. -/
def envCap : Env where
  llm := fun _ => LLMResult.ok ⟨"ok function=search(x) now", []⟩
  catalog := [⟨"s1", ["search"]⟩]
  parseJson := fun _ => none
  jsonErrMsg := fun _ => "parse error"
  exec := fun _ _ _ => ExecOutcome.raises "unused"

example : ((processQuery envCap "research btc").messages.getLast?).map Msg.content =
    some "research btc" := by decide
example : (processQuery envCap "research btc").llmLog.length = 15 := by decide

/-- Initial session state of one query (lines 236-241). -/
def initState (q : String) : SessionState := ⟨[mkUser q], false, false, [], []⟩

/-- One tool descriptor as handed to `generate_completion`
(language_model.py): name, optional description, optional input schema. -/
structure ToolSpec where
  tname : String
  tdescription : Option String
  inputSchema : Option String
deriving DecidableEq

/-- One formatted function descriptor of language_model.py lines 153-165. -/
structure FormattedTool where
  fname : String
  fdescription : String
  fparameters : Option String
deriving DecidableEq

/-- Formatting of one tool (language_model.py lines 153-165): default the
description, carry over the schema when present. -/
def formatOneTool (t : ToolSpec) : FormattedTool :=
  ⟨t.tname, t.tdescription.getD ("Tool for " ++ t.tname), t.inputSchema⟩

/-- The `tools` parameter actually placed in the Groq request
(language_model.py lines 148-189): `formatted_tools` stays `None` unless the
`tools` argument is truthy — `None` and the empty list both leave the
request without any `tools` entry — and `params["tools"]` is set only for a
truthy (hence non-empty) formatted list. -/
def formatToolsParam : Option (List ToolSpec) → Option (List FormattedTool)
  | none => none
  | some ts => if ts.isEmpty then none else some (ts.map formatOneTool)

/-- The parsed-argument value a structured call yields when parsing
succeeds (empty-string placeholder otherwise). -/
def parsedValOf (env : Env) (s : String) : String :=
  match repairAndParse env s with
  | .ok v => v
  | .error _ => ""

/-- The routed server of a tool (empty-string placeholder when unknown). -/
def serverOf (env : Env) (tn : String) : String :=
  (findServerForTool env.catalog tn).getD ""

/-- The invocation record one structured call produces when its arguments
parse and its tool resolves. -/
def structuredInvOf (env : Env) (tc : ToolCall) : String × String × String :=
  (serverOf env tc.tcname, tc.tcname, parsedValOf env tc.args)

/-- The single message one structured call appends. -/
def structuredMsgOf (env : Env) (hadFail : Bool) (tc : ToolCall) : Msg :=
  (structuredOne env hadFail tc).msg

/-- The message the model-failure fallback (lines 585-606) appends: the
fallback completion text, or the fixed apology when the fallback also
raises. -/
def fallbackMsg (env : Env) (idx : Nat) : Msg :=
  match env.llm idx with
  | LLMResult.ok r => mkAssistant r.content
  | LLMResult.err _ => mkAssistant apologyStr

/-- Environment in which the model emits nothing but the bare pseudo-call
`<function=search\x7b"query":"eth price"\x7d>` on the first turn (scenario B
of the spec) and plain text afterwards, while the `search` tool would fail
with a transport error if it were ever called. -/
def envPure : Env where
  llm := fun n =>
    if n = 0 then LLMResult.ok ⟨"<function=search\x7b\"query\":\"eth price\"\x7d>", []⟩
    else LLMResult.ok ⟨"sorry", []⟩
  catalog := [⟨"s1", ["search"]⟩]
  parseJson := fun s => if s = "\x7b\"query\": \"eth price\"\x7d" then some "query=eth price" else none
  jsonErrMsg := fun _ => "bad json"
  exec := fun _ _ _ => ExecOutcome.raises "transport error"

/-- Environment with two servers both registering a `price` tool (scenario C
of the spec); the model asks for `price` once by embedded text and then
stops. -/
def envDup : Env where
  llm := fun n =>
    if n = 0 then LLMResult.ok ⟨"please run function=price(\"q\") thanks", []⟩
    else LLMResult.ok ⟨"done", []⟩
  catalog := [⟨"s1", ["price"]⟩, ⟨"s2", ["price"]⟩]
  parseJson := fun s => if s = "\x7b\"query\": \"q\"\x7d" then some "query=q" else none
  jsonErrMsg := fun _ => "bad json"
  exec := fun _ _ _ => ExecOutcome.returns (RawResult.str "fine")

/-- Environment whose first completion embeds one curly-form pseudo-call
inside surrounding prose; its argument text `q: 1` only parses after the
key-quoting repair, then the call succeeds. -/
def envDouble : Env where
  llm := fun n =>
    if n = 0 then LLMResult.ok ⟨"see <function=search\x7bq: 1\x7d> now", []⟩
    else LLMResult.ok ⟨"done", []⟩
  catalog := [⟨"s1", ["search"]⟩]
  parseJson := fun s => if s = "\x7b\"q\": 1\x7d" then some "q=1" else none
  jsonErrMsg := fun _ => "bad json"
  exec := fun _ _ _ => ExecOutcome.returns (RawResult.str "fine")

/-- Environment whose model request always raises. -/
def envFail : Env where
  llm := fun _ => LLMResult.err "boom"
  catalog := [⟨"s1", ["search"]⟩]
  parseJson := fun _ => none
  jsonErrMsg := fun _ => "bad json"
  exec := fun _ _ _ => ExecOutcome.raises "x"

/-- A state in which a tool call has already failed. -/
def stFailed : SessionState := ⟨[mkUser "q"], true, false, [], []⟩

/-- Claim C10: for the input `None` (a missing tool result), the Result
Normalizer `_format_tool_result` returns the empty string — not the
`[Unprintable content]` sentinel and not an error string (lines 693-694). -/
theorem claim_C10_theorem :
    formatToolResult RawResult.null = "" ∧
    formatToolResult RawResult.null ≠ "[Unprintable content]" ∧
    pyStartsWith (formatToolResult RawResult.null) "Error" = false := by
  refine ⟨rfl, by decide, by decide⟩

/-- Claim C9, counterexample: with an empty catalog, `generate_completion`
produces no `tools` request parameter at all — in particular it does not
provide the synthetic fallback descriptor the claim asserts. -/
theorem claim_C9_counterexample :
    formatToolsParam (some []) = none ∧
    (formatToolsParam (some [])).isSome = false ∧
    formatToolsParam none = none := by
  refine ⟨rfl, rfl, rfl⟩

/-- Claim C9 as amended: a non-empty catalog is formatted one descriptor
per tool (names preserved, missing descriptions defaulted, schemas carried
over); an empty or absent catalog leaves the request without any `tools`
parameter, with no synthetic descriptor. -/
theorem claim_C9_theorem (ts : List ToolSpec) (h : ts ≠ []) :
    formatToolsParam (some ts) = some (ts.map formatOneTool) ∧
    (ts.map formatOneTool).map FormattedTool.fname = ts.map ToolSpec.tname ∧
    formatToolsParam none = none := by
  refine ⟨?_, ?_, rfl⟩
  · simp [formatToolsParam, h]
  · simp [formatOneTool]

/-- Witness for claim C9's theorem at a one-tool catalog. -/
theorem claim_C9_witness :
    formatToolsParam (some [⟨"get-price", none, some "s"⟩]) =
      some ([(⟨"get-price", none, some "s"⟩ : ToolSpec)].map formatOneTool) ∧
    ([(⟨"get-price", none, some "s"⟩ : ToolSpec)].map formatOneTool).map FormattedTool.fname =
      [(⟨"get-price", none, some "s"⟩ : ToolSpec)].map ToolSpec.tname ∧
    formatToolsParam none = none :=
  claim_C9_theorem [⟨"get-price", none, some "s"⟩] (by decide)

/-- Claim C3, counterexample: two servers `s1`, `s2` (registered in that
order) both provide `price`; resolution and an actual routed call go to the
first-registered server `s1`, not to the last-registered one, and no
duplicate check exists anywhere on the registration path. -/
theorem claim_C3_counterexample :
    findServerForTool [⟨"s1", ["price"]⟩, ⟨"s2", ["price"]⟩] "price" = some "s1" ∧
    ("s1" : String) ≠ "s2" ∧
    (processQuery envDup "hi").invocations = [("s1", "price", "query=q")] := by
  refine ⟨rfl, by decide, by decide⟩

/-- Claim C3 as amended: duplicate tool names are tolerated with no
duplicate check or warning, and `_find_server_for_tool` routes every call
to the first-registered server providing the name (registration-order
scan, first-write-wins). -/
theorem claim_C3_theorem (pre : List ServerTools) (s : ServerTools)
    (post : List ServerTools) (tn : String)
    (h1 : ∀ x ∈ pre, tn ∉ x.tools) (h2 : tn ∈ s.tools) :
    findServerForTool (pre ++ s :: post) tn = some s.sname := by
  induction pre with
  | nil => simp [findServerForTool, h2]
  | cons hd tl ih =>
    have hhd : tn ∉ hd.tools := h1 hd (by simp)
    simp only [List.cons_append, findServerForTool, if_neg hhd]
    exact ih (fun x hx => h1 x (by simp [hx]))

/-- Witness for claim C3's theorem: a duplicated name resolves to the
earlier server. -/
theorem claim_C3_witness :
    findServerForTool ([] ++ (⟨"a", ["t"]⟩ : ServerTools) :: [⟨"b", ["t"]⟩]) "t" = some "a" :=
  claim_C3_theorem [] ⟨"a", ["t"]⟩ [⟨"b", ["t"]⟩] "t" (by simp) (by simp)

/-- Claim C8, counterexample: the single embedded pseudo-call
`<function=search\x7b"q":"e"\x7d>` is extracted twice — once by the
curly-with-angle pattern and once by the bare-curly fallback pattern, with
identical `(name, args)` pairs — and a run whose response embeds it performs
two identical tool invocations; no deduplication happens. -/
theorem claim_C8_counterexample :
    extractCalls "<function=search\x7b\"q\":\"e\"\x7d>" =
      [("search", "\"q\":\"e\""), ("search", "\"q\":\"e\"")] ∧
    (processQuery envDouble "hi").invocations =
      [("s1", "search", "q=1"), ("s1", "search", "q=1")] := by
  refine ⟨by decide, by decide⟩

/-- Claim C8 as amended: the extractor concatenates, in code order
(curly-with-angle, paren-with-angle, paren-with-closing-tag, bare-paren,
bare-curly — the closing-tag pattern third, not first), each pattern's
findall results with no deduplication, so a pseudo-call matched by several
patterns is extracted and dispatched once per matching pattern. -/
theorem claim_C8_theorem :
    (∀ t : String, extractCalls t =
      findAllPat patCurlyAngle t.data ++ findAllPat patParenAngle t.data ++
        findAllPat patParenClosing t.data ++ findAllPat patBareParen t.data ++
        findAllPat patBareCurly t.data) ∧
    (extractCalls "see <function=search\x7bq: 1\x7d> now").length = 2 ∧
    (processQuery envDouble "hi").invocations =
      ((processQuery envDouble "hi").invocations.take 1) ++
        ((processQuery envDouble "hi").invocations.take 1) := by
  refine ⟨fun t => by simp [extractCalls], by decide, by decide⟩

/-- Claim C2, counterexample (spec scenario B): the model's whole output is
the bare pseudo-call `<function=search\x7b"query":"eth price"\x7d>` and the
`search` tool would fail — yet the run makes a second model call, never
invokes the tool at all, and ends with the second completion's text rather
than any normalized error string. -/
theorem claim_C2_counterexample :
    isJustFunctionText "<function=search\x7b\"query\":\"eth price\"\x7d>" = true ∧
    (processQuery envPure "eth price?").llmLog.length = 2 ∧
    (processQuery envPure "eth price?").invocations = [] ∧
    ((processQuery envPure "eth price?").messages.getLast?).map Msg.content = some "sorry" := by
  refine ⟨by decide, by decide, by decide, by decide⟩

/-- Claim C2 as amended: when the entire model output for a turn is only an
embedded pseudo-call, `process_query` skips the turn wholesale — the tool is
not invoked (whether it would fail or not), no message is appended, only the
`have_function_text` flag is set — and the loop proceeds to another model
call; no short-circuit occurs, because the early return of line 556 sits in
the branch that requires `is_just_function_text` to be false. -/
theorem claim_C2_theorem (env : Env) (rem iter : Nat) (st : SessionState) (r : LLMResponse)
    (h1 : env.llm st.llmLog.length = LLMResult.ok r)
    (h2 : isJustFunctionText r.content = true) :
    iterationBody env st = IterOut.cont
      { st with
        haveFunctionText := true,
        llmLog := st.llmLog ++ [some (allToolNames env)] } ∧
    runLoop env (rem + 1) iter st =
      runLoop env rem (iter + 1)
        { st with
          haveFunctionText := true,
          llmLog := st.llmLog ++ [some (allToolNames env)] } := by
  have hb : iterationBody env st = IterOut.cont
      { st with
        haveFunctionText := true,
        llmLog := st.llmLog ++ [some (allToolNames env)] } := by
    simp [iterationBody, h1, h2]
  exact ⟨hb, by simp [runLoop, hb]⟩

/-- Witness for claim C2's theorem at the scenario-B environment. -/
theorem claim_C2_witness :
    iterationBody envPure (initState "q") = IterOut.cont
      { (initState "q") with
        haveFunctionText := true,
        llmLog := (initState "q").llmLog ++ [some (allToolNames envPure)] } ∧
    runLoop envPure (14 + 1) 0 (initState "q") =
      runLoop envPure 14 (0 + 1)
        { (initState "q") with
          haveFunctionText := true,
          llmLog := (initState "q").llmLog ++ [some (allToolNames envPure)] } :=
  claim_C2_theorem envPure 14 0 (initState "q")
    ⟨"<function=search\x7b\"query\":\"eth price\"\x7d>", []⟩ (by decide) (by decide)

/-- Claim C5: when the language-model request raises, the orchestrator
appends the error notice, makes exactly one further model request with
`tools=None` (the `none` entry of the call log), appends either that
fallback completion's text or the fixed apology, and leaves the loop by
`break` — the failure surfaces as ordinary messages of the returned
conversation, never as an exception (the embedding is a total function and
this equation is its complete behavior for the failing turn). -/
theorem claim_C5_theorem (env : Env) (rem iter : Nat) (st : SessionState) (em : String)
    (h : env.llm st.llmLog.length = LLMResult.err em) :
    runLoop env (rem + 1) iter st =
      ({ st with
          messages := st.messages ++
            [mkAssistant (errNotice em), fallbackMsg env (st.llmLog.length + 1)],
          llmLog := st.llmLog ++ [some (allToolNames env), none] }, iter, ExitKind.brokeK) := by
  cases hf : env.llm (st.llmLog.length + 1) with
  | ok r => simp [runLoop, iterationBody, h, hf, fallbackMsg]
  | err e2 => simp [runLoop, iterationBody, h, hf, fallbackMsg]

/-- Witness for claim C5's theorem in the always-failing environment: both
the main call and the fallback fail, so the appended fallback message is the
apology. -/
theorem claim_C5_witness :
    runLoop envFail (0 + 1) 0 (initState "q") =
      ({ (initState "q") with
          messages := (initState "q").messages ++
            [mkAssistant (errNotice "boom"), fallbackMsg envFail ((initState "q").llmLog.length + 1)],
          llmLog := (initState "q").llmLog ++ [some (allToolNames envFail), none] },
        0, ExitKind.brokeK) :=
  claim_C5_theorem envFail 0 0 (initState "q") "boom" (by decide)


/-- When its arguments parse and its tool resolves, one structured call
performs exactly one invocation: the routed server, the requested tool, the
parsed arguments. -/
theorem structuredOne_resolved (env : Env) (hadFail : Bool) (tc : ToolCall)
    (h1 : ∃ v, repairAndParse env tc.args = Except.ok v)
    (h2 : ∃ sv, findServerForTool env.catalog tc.tcname = some sv) :
    (structuredOne env hadFail tc).invs = [structuredInvOf env tc] := by
  obtain ⟨v, hv⟩ := h1
  obtain ⟨sv, hs⟩ := h2
  unfold structuredOne structuredInvOf serverOf parsedValOf
  rw [hv, hs]
  cases hxe : env.exec sv tc.tcname v <;> simp [hxe, hv, hs]

/-- A structured dispatch batch whose calls all parse and resolve appends
exactly one message per call and performs exactly one invocation per call,
both in request order. -/
theorem structuredBatch_shape (env : Env) (hadFail : Bool) (calls : List ToolCall)
    (h : ∀ tc ∈ calls, (∃ v, repairAndParse env tc.args = Except.ok v) ∧
         (∃ sv, findServerForTool env.catalog tc.tcname = some sv)) :
    (structuredBatch env hadFail calls).msgs = calls.map (structuredMsgOf env hadFail) ∧
    (structuredBatch env hadFail calls).invs = calls.map (structuredInvOf env) := by
  induction calls with
  | nil => exact ⟨rfl, rfl⟩
  | cons tc rest ih =>
    have hone := structuredOne_resolved env hadFail tc (h tc (by simp)).1 (h tc (by simp)).2
    have ihm := ih (fun x hx => h x (by simp [hx]))
    refine ⟨?_, ?_⟩ <;> simp [structuredBatch, structuredMsgOf, hone, ihm.1, ihm.2]

/-- Field accounting for the failure-flag update. -/
theorem updateFailFlag_fields (st : SessionState) (b : Bool) :
    (updateFailFlag st b).messages = st.messages ∧
    (updateFailFlag st b).invocations = st.invocations ∧
    (updateFailFlag st b).llmLog = st.llmLog ∧
    ((updateFailFlag st b).hadToolFailure = st.hadToolFailure ∨
     (updateFailFlag st b).hadToolFailure = true) := by
  unfold updateFailFlag
  split <;> simp

/-- Field accounting for the finishing step of the structured branch: at
most one closing assistant message is appended and nothing else changes. -/
theorem structuredFinish_shape (b : Bool) (st : SessionState) :
    ∃ extra, (structuredFinish b st).state.messages = st.messages ++ extra ∧
      (extra = [] ∨ ∃ c, extra = [mkAssistant c]) ∧
      (structuredFinish b st).state.hadToolFailure = st.hadToolFailure ∧
      (structuredFinish b st).state.invocations = st.invocations ∧
      (structuredFinish b st).state.llmLog = st.llmLog := by
  unfold structuredFinish
  split
  · split
    · rename_i m hscan
      split
      · exact ⟨[mkAssistant m.content], by simp [IterOut.state], Or.inr ⟨m.content, rfl⟩,
          by simp [IterOut.state], by simp [IterOut.state], by simp [IterOut.state]⟩
      · exact ⟨[], by simp [IterOut.state], Or.inl rfl, by simp [IterOut.state],
          by simp [IterOut.state], by simp [IterOut.state]⟩
    · exact ⟨[], by simp [IterOut.state], Or.inl rfl, by simp [IterOut.state],
        by simp [IterOut.state], by simp [IterOut.state]⟩
  · exact ⟨[], by simp [IterOut.state], Or.inl rfl, by simp [IterOut.state],
      by simp [IterOut.state], by simp [IterOut.state]⟩

/-- Shape of the whole structured branch: one leading assistant message,
then exactly the per-call result messages in order, then at most one closing
assistant answer; exactly the requested invocations in order; and no model
request is made during the dispatch. -/
theorem structuredPath_shape (env : Env) (st : SessionState) (content : String)
    (calls : List ToolCall)
    (h : ∀ tc ∈ calls, (∃ v, repairAndParse env tc.args = Except.ok v) ∧
         (∃ sv, findServerForTool env.catalog tc.tcname = some sv)) :
    ∃ extra,
      (structuredPath env st content calls).state.messages =
        st.messages ++ assistantEcho st.hadToolFailure content calls ::
          (calls.map (structuredMsgOf env st.hadToolFailure) ++ extra) ∧
      (extra = [] ∨ ∃ c, extra = [mkAssistant c]) ∧
      (structuredPath env st content calls).state.invocations =
        st.invocations ++ calls.map (structuredInvOf env) ∧
      (structuredPath env st content calls).state.llmLog = st.llmLog := by
  obtain ⟨hm, hi⟩ := structuredBatch_shape env st.hadToolFailure calls h
  unfold structuredPath
  obtain ⟨hf1, hf2, hf3, _⟩ := updateFailFlag_fields
    { st with
        messages := st.messages ++ assistantEcho st.hadToolFailure content calls ::
          (structuredBatch env st.hadToolFailure calls).msgs,
        invocations := st.invocations ++ (structuredBatch env st.hadToolFailure calls).invs }
    (structuredBatch env st.hadToolFailure calls).allOk
  obtain ⟨extra, he1, he2, _, he4, he5⟩ :=
    structuredFinish_shape (structuredBatch env st.hadToolFailure calls).haveSucc
      (updateFailFlag
        { st with
            messages := st.messages ++ assistantEcho st.hadToolFailure content calls ::
              (structuredBatch env st.hadToolFailure calls).msgs,
            invocations := st.invocations ++ (structuredBatch env st.hadToolFailure calls).invs }
        (structuredBatch env st.hadToolFailure calls).allOk)
  refine ⟨extra, ?_, he2, ?_, ?_⟩
  · rw [he1, hf1]
    simp [hm, List.append_assoc]
  · rw [he4, hf2, hi]
  · rw [he5, hf3]

/-- Like `envStruct`, but the tool-call completion also carries leading
prose, so its content is not pure pseudo-call text. -/
def envStructMix : Env where
  llm := fun n =>
    if n = 0 then
      LLMResult.ok ⟨"Let me check <function=search\x7b\"query\": \"x\"\x7d>",
        [⟨"id1", "search", "\x7b\"query\": \"x\"\x7d"⟩]⟩
    else LLMResult.ok ⟨"done", []⟩
  catalog := [⟨"s1", ["search"]⟩]
  parseJson := fun s => if s = "\x7b\"query\": \"x\"\x7d" then some "query=x" else none
  jsonErrMsg := fun _ => "bad json"
  exec := fun _ _ _ => ExecOutcome.returns (RawResult.str "BTC price is 67000")

/-- Claim C1, counterexample: the first completion of `envStruct` carries a
well-formed structured tool call (valid arguments, registered tool), yet
the run invokes no tool at all, appends no tool-result message, and issues
a second model call — because the content produced for that completion is
pure pseudo-call text, which short-circuits past the whole dispatch. -/
theorem claim_C1_counterexample :
    envStruct.llm 0 = LLMResult.ok ⟨"<function=search\x7b\"query\":\"x\"\x7d>",
      [⟨"id1", "search", "\x7b\"query\":\"x\"\x7d"⟩]⟩ ∧
    repairAndParse envStruct "\x7b\"query\":\"x\"\x7d" = Except.ok "query=x" ∧
    findServerForTool envStruct.catalog "search" = some "s1" ∧
    (processQuery envStruct "hi").invocations = [] ∧
    (processQuery envStruct "hi").llmLog.length = 2 ∧
    (processQuery envStruct "hi").messages.all (fun m => !roleIsTool m) = true := by
  refine ⟨by decide, by decide, by decide, by decide, by decide, by decide⟩

/-- Claim C1 as amended: for a model response carrying well-formed
structured tool calls whose content is not itself bare pseudo-call text,
the iteration invokes exactly the requested tools with exactly the parsed
arguments, in request order, and appends exactly one tool-result message
per call (framed by the assistant echo and at most one closing answer)
before any further model request — the dispatch itself consults the model
zero times. -/
theorem claim_C1_theorem (env : Env) (st : SessionState) (r : LLMResponse)
    (h1 : env.llm st.llmLog.length = LLMResult.ok r)
    (h2 : isJustFunctionText r.content = false)
    (h3 : r.toolCalls ≠ [])
    (h4 : ∀ tc ∈ r.toolCalls, (∃ v, repairAndParse env tc.args = Except.ok v) ∧
          (∃ sv, findServerForTool env.catalog tc.tcname = some sv)) :
    ∃ extra,
      (iterationBody env st).state.messages =
        st.messages ++ assistantEcho st.hadToolFailure r.content r.toolCalls ::
          (r.toolCalls.map (structuredMsgOf env st.hadToolFailure) ++ extra) ∧
      (extra = [] ∨ ∃ c, extra = [mkAssistant c]) ∧
      (iterationBody env st).state.invocations =
        st.invocations ++ r.toolCalls.map (structuredInvOf env) ∧
      (iterationBody env st).state.llmLog = st.llmLog ++ [some (allToolNames env)] := by
  have hne : r.toolCalls.isEmpty = false := by
    cases hc : r.toolCalls with
    | nil => exact absurd hc h3
    | cons a l => rfl
  have hib : iterationBody env st = structuredPath env
      { st with llmLog := st.llmLog ++ [some (allToolNames env)] } r.content r.toolCalls := by
    simp [iterationBody, h1, h2, hne]
  rw [hib]
  simpa using structuredPath_shape env
    { st with llmLog := st.llmLog ++ [some (allToolNames env)] } r.content r.toolCalls h4

/-- Witness for claim C1's theorem at `envStructMix` and the initial
state. -/
theorem claim_C1_witness :
    ∃ extra,
      (iterationBody envStructMix (initState "hi")).state.messages =
        (initState "hi").messages ++
          assistantEcho (initState "hi").hadToolFailure
              "Let me check <function=search\x7b\"query\": \"x\"\x7d>"
              [⟨"id1", "search", "\x7b\"query\": \"x\"\x7d"⟩] ::
            ([(⟨"id1", "search", "\x7b\"query\": \"x\"\x7d"⟩ : ToolCall)].map
                (structuredMsgOf envStructMix (initState "hi").hadToolFailure) ++ extra) ∧
      (extra = [] ∨ ∃ c, extra = [mkAssistant c]) ∧
      (iterationBody envStructMix (initState "hi")).state.invocations =
        (initState "hi").invocations ++
          [(⟨"id1", "search", "\x7b\"query\": \"x\"\x7d"⟩ : ToolCall)].map
            (structuredInvOf envStructMix) ∧
      (iterationBody envStructMix (initState "hi")).state.llmLog =
        (initState "hi").llmLog ++ [some (allToolNames envStructMix)] :=
  claim_C1_theorem envStructMix (initState "hi")
    ⟨"Let me check <function=search\x7b\"query\": \"x\"\x7d>",
      [⟨"id1", "search", "\x7b\"query\": \"x\"\x7d"⟩]⟩
    (by decide) (by decide) (by decide)
    (by
      intro tc htc
      rw [List.mem_singleton] at htc
      subst htc
      exact ⟨⟨"query=x", by decide⟩, ⟨"s1", by decide⟩⟩)

/-- Claim C4, counterexample: a query mentioning research runs to the
iteration cap with zero successful tool results (indeed zero `tool`-role
messages), yet the synthesized final answer is the echoed user query
selected by the secondary keyword scan of lines 619-624 — not the generic
fallback the claim requires. -/
theorem claim_C4_counterexample :
    (processQuery envCap "research btc").messages.filter
        (fun m => roleIsTool m && !substrOf "Error" m.content) = [] ∧
    ((processQuery envCap "research btc").messages.getLast?).map Msg.content =
      some "research btc" ∧
    ("research btc" : String) ≠ genericFallback := by
  refine ⟨by decide, by decide, by decide⟩

/-- A message selected by the keyword scan has non-empty content. -/
theorem keywordCap_content_ne (m : Msg) (h : keywordCap m = true) : m.content ≠ "" := by
  intro hc
  unfold keywordCap at h
  rw [hc] at h
  exact absurd h (by decide)

/-- Claim C4 as amended: the cap synthesis never yields the empty string;
with zero successful (non-error) tool results it yields the generic
fallback only when no message's content mentions `search results` or
`research` — otherwise it echoes the most recent such message's content. -/
theorem claim_C4_theorem (msgs : List Msg)
    (h1 : ∀ m ∈ msgs, roleIsTool m = true → substrOf "Error" m.content = true) :
    capContent msgs ≠ "" ∧
    (msgs.reverse.find? keywordCap = none → capContent msgs = genericFallback) ∧
    (∀ m, msgs.reverse.find? keywordCap = some m → capContent msgs = m.content) := by
  have hf1 : msgs.reverse.find? (fun m => roleIsTool m && !substrOf "Error" m.content) = none := by
    rw [List.find?_eq_none]
    intro x hx hp
    rw [Bool.and_eq_true, Bool.not_eq_true'] at hp
    exact absurd (h1 x (List.mem_reverse.mp hx) hp.1) (by simp [hp.2])
  unfold capContent
  rw [hf1]
  simp only [Option.map_none', Option.getD_none, if_pos rfl, reduceIte]
  cases hf2 : msgs.reverse.find? keywordCap with
  | none =>
    refine ⟨by simp [genericFallback], fun _ => by simp, fun m hm => by cases hm⟩
  | some m =>
    have hk : keywordCap m = true := List.find?_some hf2
    have hne := keywordCap_content_ne m hk
    refine ⟨by simp [hne], fun hcontra => absurd hcontra (by simp), fun m' hm' => ?_⟩
    have hmm : m = m' := by injection hm'
    subst hmm
    simp [hne]

/-- Witness for claim C4's theorem: a single plain user message has no tool
results and no keyword hit, so the synthesis yields the generic fallback. -/
theorem claim_C4_witness :
    capContent [mkUser "hello"] ≠ "" ∧
    (([mkUser "hello"] : List Msg).reverse.find? keywordCap = none →
      capContent [mkUser "hello"] = genericFallback) ∧
    (∀ m, ([mkUser "hello"] : List Msg).reverse.find? keywordCap = some m →
      capContent [mkUser "hello"] = m.content) :=
  claim_C4_theorem [mkUser "hello"] (by decide)

/-- Once a failure has occurred, every message a structured call appends is
a plain `user` echo. -/
theorem structuredOne_user_after_failure (env : Env) (tc : ToolCall) :
    (structuredOne env true tc).msg.role = Role.user := by
  rcases hp : repairAndParse env tc.args with em | v
  · simp [structuredOne, hp, structuredErrMsg]
  · rcases hs : findServerForTool env.catalog tc.tcname with _ | sv
    · simp [structuredOne, hp, hs, structuredErrMsg]
    · rcases he : env.exec sv tc.tcname v with em | raw <;>
        simp [structuredOne, hp, hs, he, structuredResultMsg]

/-- Once a failure has occurred, a structured dispatch batch appends only
`user`-role messages. -/
theorem structuredBatch_user_after_failure (env : Env) (calls : List ToolCall) :
    ∀ m ∈ (structuredBatch env true calls).msgs, m.role = Role.user := by
  induction calls with
  | nil => intro m hm; simp [structuredBatch] at hm
  | cons tc rest ih =>
    intro m hm
    simp only [structuredBatch, List.mem_cons] at hm
    rcases hm with hm | hm
    · rw [hm]; exact structuredOne_user_after_failure env tc
    · exact ih m hm

/-- A text-extracted call always appends a `user`-role message. -/
theorem textOne_user (env : Env) (tn ras : String) :
    (textOne env tn ras).msg.role = Role.user := by
  rcases hp : repairAndParse env (pyStrip ras) with em | v
  · simp [textOne, hp, mkUser]
  · rcases hs : findServerForTool env.catalog tn with _ | sv
    · simp [textOne, hp, hs, mkUser]
    · rcases he : env.exec sv tn v with em | raw <;> simp [textOne, hp, hs, he, mkUser]

/-- The messages a text dispatch batch appends have role `user` or (for the
early-return's closing answer) `assistant` — never `tool`. -/
theorem textBatch_roles (env : Env) (isJust : Bool) (fm : List (String × String)) :
    ∀ acc : Bool, ∀ m ∈ (textBatch env isJust acc fm).msgs,
      m.role = Role.user ∨ m.role = Role.assistant := by
  induction fm with
  | nil => intro acc m hm; simp [textBatch] at hm
  | cons p rest ih =>
    rcases p with ⟨tn, ras⟩
    intro acc m hm
    unfold textBatch at hm
    by_cases hc : (!(textOne env tn ras).raised && isJust &&
        (acc || (textOne env tn ras).succ)) = true
    · simp only [hc, reduceIte] at hm
      simp only [List.mem_cons, List.not_mem_nil, or_false] at hm
      rcases hm with hm | hm
      · rw [hm]; exact Or.inl (textOne_user env tn ras)
      · rw [hm]; exact Or.inr rfl
    · rw [Bool.not_eq_true] at hc
      simp only [hc, Bool.false_eq_true, reduceIte] at hm
      simp only [List.mem_cons] at hm
      rcases hm with hm | hm
      · rw [hm]; exact Or.inl (textOne_user env tn ras)
      · exact ih _ m hm

/-- Structure of the text branch: it records the assistant message, then
either nothing (no extracted calls) or the batch messages; it never clears
an already-set failure flag. -/
theorem textPath_cases (env : Env) (st : SessionState) (content : String) :
    ∃ d, (textPath env st content).state.messages = st.messages ++ mkAssistant content :: d ∧
      (d = [] ∨ d = (textBatch env false false (extractCalls content)).msgs) ∧
      ((textPath env st content).state.hadToolFailure = st.hadToolFailure ∨
       (textPath env st content).state.hadToolFailure = true) := by
  unfold textPath
  by_cases hE : (extractCalls content).isEmpty = true
  · simp only [hE, reduceIte]
    exact ⟨[], by simp [IterOut.state], Or.inl rfl, Or.inl (by simp [IterOut.state])⟩
  · rw [Bool.not_eq_true] at hE
    simp only [hE, Bool.false_eq_true, reduceIte]
    by_cases hR : (textBatch env false false (extractCalls content)).returned = true
    · simp only [hR, reduceIte]
      exact ⟨_, by simp [IterOut.state], Or.inr rfl, Or.inl (by simp [IterOut.state])⟩
    · rw [Bool.not_eq_true] at hR
      simp only [hR, Bool.false_eq_true, reduceIte]
      by_cases hA : (textBatch env false false (extractCalls content)).allOk = true
      · simp only [hA, reduceIte]
        exact ⟨_, by simp [IterOut.state], Or.inr rfl, Or.inl (by simp [IterOut.state])⟩
      · rw [Bool.not_eq_true] at hA
        simp only [hA, Bool.false_eq_true, reduceIte]
        exact ⟨_, by simp [IterOut.state], Or.inr rfl, Or.inr (by simp [IterOut.state])⟩

/-- Structure of the structured branch with no assumptions on the calls:
the assistant echo, the batch messages, at most one closing answer; the
failure flag is kept or newly set, never cleared. -/
theorem structuredPath_cases (env : Env) (st : SessionState) (content : String)
    (calls : List ToolCall) :
    ∃ extra, (structuredPath env st content calls).state.messages =
        st.messages ++ assistantEcho st.hadToolFailure content calls ::
          ((structuredBatch env st.hadToolFailure calls).msgs ++ extra) ∧
      (extra = [] ∨ ∃ c, extra = [mkAssistant c]) ∧
      ((structuredPath env st content calls).state.hadToolFailure = st.hadToolFailure ∨
       (structuredPath env st content calls).state.hadToolFailure = true) := by
  unfold structuredPath
  obtain ⟨hf1, hf2, hf3, hf4⟩ := updateFailFlag_fields
    { st with
        messages := st.messages ++ assistantEcho st.hadToolFailure content calls ::
          (structuredBatch env st.hadToolFailure calls).msgs,
        invocations := st.invocations ++ (structuredBatch env st.hadToolFailure calls).invs }
    (structuredBatch env st.hadToolFailure calls).allOk
  obtain ⟨extra, he1, he2, he3, _, _⟩ :=
    structuredFinish_shape (structuredBatch env st.hadToolFailure calls).haveSucc
      (updateFailFlag
        { st with
            messages := st.messages ++ assistantEcho st.hadToolFailure content calls ::
              (structuredBatch env st.hadToolFailure calls).msgs,
            invocations := st.invocations ++ (structuredBatch env st.hadToolFailure calls).invs }
        (structuredBatch env st.hadToolFailure calls).allOk)
  refine ⟨extra, ?_, he2, ?_⟩
  · rw [he1, hf1]
    simp [List.append_assoc]
  · rw [he3]
    exact hf4

/-- After a failure, the structured branch appends only `assistant` and
`user` messages and keeps the failure flag set. -/
theorem structuredPath_delta (env : Env) (st : SessionState) (content : String)
    (calls : List ToolCall) (h : st.hadToolFailure = true) :
    ∃ d, (structuredPath env st content calls).state.messages = st.messages ++ d ∧
      (∀ m ∈ d, m.role ≠ Role.tool) ∧
      (structuredPath env st content calls).state.hadToolFailure = true := by
  obtain ⟨extra, hmsg, hex, hflag⟩ := structuredPath_cases env st content calls
  refine ⟨assistantEcho st.hadToolFailure content calls ::
    ((structuredBatch env st.hadToolFailure calls).msgs ++ extra), hmsg, ?_, ?_⟩
  · intro m hm
    rcases List.mem_cons.mp hm with hm | hm
    · rw [hm, h]; simp [assistantEcho, mkAssistant]
    · rcases List.mem_append.mp hm with hm | hm
      · have := structuredBatch_user_after_failure env calls m (by rw [h] at hm; exact hm)
        simp [this]
      · rcases hex with he | ⟨c, he⟩
        · rw [he] at hm; simp at hm
        · rw [he, List.mem_singleton] at hm; rw [hm]; simp [mkAssistant]
  · rcases hflag with hf | hf
    · rw [hf, h]
    · exact hf

/-- After a failure, the text branch appends only non-`tool` messages and
keeps the failure flag set. -/
theorem textPath_delta (env : Env) (st : SessionState) (content : String)
    (h : st.hadToolFailure = true) :
    ∃ d, (textPath env st content).state.messages = st.messages ++ d ∧
      (∀ m ∈ d, m.role ≠ Role.tool) ∧
      (textPath env st content).state.hadToolFailure = true := by
  obtain ⟨d, hmsg, hd, hflag⟩ := textPath_cases env st content
  refine ⟨mkAssistant content :: d, hmsg, ?_, ?_⟩
  · intro m hm
    rcases List.mem_cons.mp hm with hm | hm
    · rw [hm]; simp [mkAssistant]
    · rcases hd with he | he
      · rw [he] at hm; simp at hm
      · rw [he] at hm
        rcases textBatch_roles env false (extractCalls content) false m hm with hr | hr <;> simp [hr]
  · rcases hflag with hf | hf
    · rw [hf, h]
    · exact hf

/-- After a failure, one loop iteration appends only non-`tool` messages
and keeps the failure flag set, whichever way it ends. -/
theorem iterationBody_after_failure (env : Env) (st : SessionState)
    (h : st.hadToolFailure = true) :
    ∃ d, (iterationBody env st).state.messages = st.messages ++ d ∧
      (∀ m ∈ d, m.role ≠ Role.tool) ∧
      (iterationBody env st).state.hadToolFailure = true := by
  unfold iterationBody
  rcases hl : env.llm st.llmLog.length with r | em
  · simp only [hl]
    by_cases hj : isJustFunctionText r.content = true
    · simp only [hj, reduceIte]
      exact ⟨[], by simp [IterOut.state], by simp, by simp [IterOut.state, h]⟩
    · rw [Bool.not_eq_true] at hj
      simp only [hj, Bool.false_eq_true, reduceIte]
      by_cases he : r.toolCalls.isEmpty = true
      · simp only [he, reduceIte]
        have := textPath_delta env
          { st with llmLog := st.llmLog ++ [some (allToolNames env)] } r.content (by simpa using h)
        simpa using this
      · rw [Bool.not_eq_true] at he
        simp only [he, Bool.false_eq_true, reduceIte]
        have := structuredPath_delta env
          { st with llmLog := st.llmLog ++ [some (allToolNames env)] } r.content r.toolCalls
          (by simpa using h)
        simpa using this
  · simp only [hl]
    rcases hf : env.llm (st.llmLog.length + 1) with r2 | em2
    all_goals simp only [hf]
    · exact ⟨[mkAssistant (errNotice em), mkAssistant r2.content],
        by simp [IterOut.state], by simp [mkAssistant], by simp [IterOut.state, h]⟩
    · exact ⟨[mkAssistant (errNotice em), mkAssistant apologyStr],
        by simp [IterOut.state], by simp [mkAssistant], by simp [IterOut.state, h]⟩

/-- After a failure, the rest of the loop appends only non-`tool`
messages. -/
theorem runLoop_after_failure (env : Env) (rem : Nat) :
    ∀ (iter : Nat) (st : SessionState), st.hadToolFailure = true →
    ∃ d, (runLoop env rem iter st).1.messages = st.messages ++ d ∧
      ∀ m ∈ d, m.role ≠ Role.tool := by
  induction rem with
  | zero => exact fun iter st _ => ⟨[], by simp [runLoop], by simp⟩
  | succ n ih =>
    intro iter st h
    obtain ⟨d1, hd1, hr1, hflag⟩ := iterationBody_after_failure env st h
    unfold runLoop
    cases hib : iterationBody env st with
    | ret st' =>
      rw [hib] at hd1
      exact ⟨d1, by simpa [IterOut.state] using hd1, hr1⟩
    | brk st' =>
      rw [hib] at hd1
      exact ⟨d1, by simpa [IterOut.state] using hd1, hr1⟩
    | cont st' =>
      rw [hib] at hd1 hflag
      obtain ⟨d2, hd2, hr2⟩ := ih (iter + 1) st' (by simpa [IterOut.state] using hflag)
      refine ⟨d1 ++ d2, ?_, ?_⟩
      · rw [hd2, show st'.messages = st.messages ++ d1 from by
          simpa [IterOut.state] using hd1, List.append_assoc]
      · intro m hm
        rcases List.mem_append.mp hm with hm | hm
        · exact hr1 m hm
        · exact hr2 m hm

/-- Claim C6: once a tool call has failed (`had_tool_failure` set), every
message the rest of the run appends — in particular every tool-result
message — has a non-`tool` role (the results become plain `user` echoes),
for the remainder of the session including the cap synthesis. -/
theorem claim_C6_theorem (env : Env) (rem iter : Nat) (st : SessionState)
    (h : st.hadToolFailure = true) :
    ∃ d, (processFrom env rem iter st).messages = st.messages ++ d ∧
      ∀ m ∈ d, m.role ≠ Role.tool := by
  obtain ⟨d, hd, hr⟩ := runLoop_after_failure env rem iter st h
  unfold processFrom
  rcases hrl : runLoop env rem iter st with ⟨s, li, k⟩
  rw [hrl] at hd
  cases k with
  | returnedK => exact ⟨d, hd, hr⟩
  | completedK =>
    by_cases h14 : li = 14
    · simp only [h14, reduceIte]
      refine ⟨d ++ [mkAssistant (capContent s.messages)], ?_, ?_⟩
      · rw [hd, List.append_assoc]
      · intro m hm
        rcases List.mem_append.mp hm with hm | hm
        · exact hr m hm
        · rw [List.mem_singleton.mp hm]; simp [mkAssistant]
    · simp only [h14, reduceIte]
      exact ⟨d, hd, hr⟩
  | brokeK =>
    by_cases h14 : li = 14
    · simp only [h14, reduceIte]
      refine ⟨d ++ [mkAssistant (capContent s.messages)], ?_, ?_⟩
      · rw [hd, List.append_assoc]
      · intro m hm
        rcases List.mem_append.mp hm with hm | hm
        · exact hr m hm
        · rw [List.mem_singleton.mp hm]; simp [mkAssistant]
    · simp only [h14, reduceIte]
      exact ⟨d, hd, hr⟩

/-- Witness for claim C6's theorem: a session that already had a failure,
run in the always-failing model environment. -/
theorem claim_C6_witness :
    ∃ d, (processFrom envFail 15 0 stFailed).messages = stFailed.messages ++ d ∧
      ∀ m ∈ d, m.role ≠ Role.tool :=
  claim_C6_theorem envFail 15 0 stFailed rfl

/-- `isPre` captures exactly the prefix decompositions. -/
theorem isPre_iff (p : List Char) : ∀ s, isPre p s = true ↔ ∃ t, s = p ++ t := by
  induction p with
  | nil => intro s; simp [isPre]
  | cons a p ih =>
    intro s
    cases s with
    | nil => simp [isPre]
    | cons b s =>
      simp only [isPre, Bool.and_eq_true, decide_eq_true_eq, List.cons_append, ih]
      constructor
      · rintro ⟨rfl, t, rfl⟩
        exact ⟨t, rfl⟩
      · rintro ⟨t, ht⟩
        injection ht with h1 h2
        exact ⟨h1.symm, t, h2⟩

/-- Does `s` end with the literal `suffix`? -/
def endsWithL (suffix s : List Char) : Bool := isPre suffix.reverse s.reverse

/-- `endsWithL` captures exactly the suffix decompositions. -/
theorem endsWithL_iff (close s : List Char) : endsWithL close s = true ↔ ∃ a, s = a ++ close := by
  unfold endsWithL
  rw [isPre_iff]
  constructor
  · rintro ⟨t, ht⟩
    refine ⟨t.reverse, ?_⟩
    have h2 := congrArg List.reverse ht
    simpa using h2
  · rintro ⟨a, rfl⟩
    exact ⟨a.reverse, by simp⟩

/-- Spec-side tail test for an end-anchored call pattern: the remainder is
exactly `args ++ close` with no newline inside `args`. -/
def tailArgsClose (close s : List Char) : Bool :=
  endsWithL close s && !((s.take (s.length - close.length)).contains '\n')

/-- Spec-side tail test for an unanchored call pattern: the closing literal
occurs before any newline. -/
def hasCloseBeforeNL (close : List Char) : List Char → Bool
  | [] => isPre close []
  | s@(c :: r) =>
    if isPre close s then true else if c = '\n' then false else hasCloseBeforeNL close r

/-- The backtracking lazy-close-with-anchor search succeeds on exactly the
`args ++ close` decompositions without interior newline. -/
theorem lazyStarCloseEnd_eq_some (close : List Char) (hne : close ≠ []) (hnl : '\n' ∉ close) :
    ∀ s a, lazyStarCloseEnd close s = some a ↔ (s = a ++ close ∧ '\n' ∉ a) := by
  intro s
  induction s with
  | nil =>
    intro a
    constructor
    · intro hsome
      exact absurd hsome (by simp [lazyStarCloseEnd, hne])
    · rintro ⟨heq, _⟩
      exfalso
      cases a with
      | nil => exact hne heq.symm
      | cons x xs => simp at heq
  | cons c r ih =>
    intro a
    unfold lazyStarCloseEnd
    by_cases h1 : c :: r = close
    · rw [if_pos h1]
      constructor
      · intro hsome
        injection hsome with ha
        subst ha
        exact ⟨by simp [h1], by simp⟩
      · rintro ⟨heq, _⟩
        have ha : a = [] := by
          have h3 : a ++ close = close := by rw [← heq, h1]
          simpa using List.append_left_eq_self.mp h3
        rw [ha]
    · rw [if_neg h1]
      by_cases h2 : c = '\n'
      · rw [if_pos h2]
        constructor
        · intro hsome; cases hsome
        · rintro ⟨heq, hna⟩
          exfalso
          cases a with
          | nil => exact h1 (by simpa using heq)
          | cons x xs =>
            injection heq with hx _
            exact hna (by rw [← hx, h2]; exact List.mem_cons_self _ _)
      · rw [if_neg h2]
        constructor
        · intro hsome
          rcases Option.map_eq_some'.mp hsome with ⟨a', ha', rfl⟩
          obtain ⟨heq, hna⟩ := (ih a').mp ha'
          refine ⟨by rw [heq]; rfl, ?_⟩
          intro hmem
          rcases List.mem_cons.mp hmem with hmem | hmem
          · exact h2 hmem.symm
          · exact hna hmem
        · rintro ⟨heq, hna⟩
          cases a with
          | nil => exact absurd (by simpa using heq) h1
          | cons x xs =>
            injection heq with hx hrest
            subst hx
            have hxs : lazyStarCloseEnd close r = some xs :=
              (ih xs).mpr ⟨hrest, fun hm => hna (List.mem_cons_of_mem _ hm)⟩
            rw [hxs]
            rfl

/-- `tailArgsClose` captures the same decompositions. -/
theorem tailArgsClose_iff (close s : List Char) :
    tailArgsClose close s = true ↔ ∃ a, (s = a ++ close ∧ '\n' ∉ a) := by
  unfold tailArgsClose
  rw [Bool.and_eq_true, endsWithL_iff]
  constructor
  · rintro ⟨⟨a, rfl⟩, hn⟩
    refine ⟨a, rfl, ?_⟩
    rw [Bool.not_eq_true'] at hn
    rw [show (a ++ close).length - close.length = a.length by simp, List.take_left] at hn
    simpa using hn
  · rintro ⟨a, rfl, hna⟩
    refine ⟨⟨a, rfl⟩, ?_⟩
    rw [Bool.not_eq_true']
    rw [show (a ++ close).length - close.length = a.length by simp, List.take_left]
    simpa using hna

/-- The lazy close search (no anchor) succeeds exactly when the closing
literal occurs before any newline. -/
theorem lazyStarClose_isSome (close : List Char) :
    ∀ s, (lazyStarClose close s).isSome = hasCloseBeforeNL close s := by
  intro s
  induction s with
  | nil =>
    cases close with
    | nil => simp [lazyStarClose, hasCloseBeforeNL, isPre]
    | cons x xs => simp [lazyStarClose, hasCloseBeforeNL, isPre]
  | cons c r ih =>
    unfold lazyStarClose hasCloseBeforeNL
    by_cases hp : isPre close (c :: r) = true
    · simp [hp]
    · rw [Bool.not_eq_true] at hp
      by_cases hn : c = '\n'
      · subst hn; simp [hp]
      · simp [hp, hn, ih]

/-- `lazyStarCloseEnd` succeeds exactly when `tailArgsClose` accepts. -/
theorem lazyStarCloseEnd_isSome (close : List Char) (hne : close ≠ []) (hnl : '\n' ∉ close)
    (s : List Char) : (lazyStarCloseEnd close s).isSome = tailArgsClose close s := by
  rw [Bool.eq_iff_iff, Option.isSome_iff_exists, tailArgsClose_iff]
  constructor
  · rintro ⟨a, ha⟩
    exact ⟨a, (lazyStarCloseEnd_eq_some close hne hnl s a).mp ha⟩
  · rintro ⟨a, ha⟩
    exact ⟨a, (lazyStarCloseEnd_eq_some close hne hnl s a).mpr ha⟩

/-- Spec-side full-anchored reading of one call pattern: lead-in, name, one
argument segment, the closing literal at the very end, nothing else. -/
def entireMatchPat (p : Pat) (s : List Char) : Bool :=
  match dropPre p.pre s with
  | none => false
  | some s1 =>
    let w := s1.takeWhile isPyWord
    if w = [] then false
    else
      match s1.drop w.length with
      | [] => false
      | c :: s3 => c = p.openc && tailArgsClose p.close s3

/-- Spec-side head-anchored reading of one call pattern: same shape but the
closing literal need only occur somewhere before a newline, with arbitrary
trailing content allowed. -/
def headMatchPat (p : Pat) (s : List Char) : Bool :=
  match dropPre p.pre s with
  | none => false
  | some s1 =>
    let w := s1.takeWhile isPyWord
    if w = [] then false
    else
      match s1.drop w.length with
      | [] => false
      | c :: s3 => c = p.openc && hasCloseBeforeNL p.close s3

/-- The claim's own notion of a pure call: the entire trimmed text matches
one call pattern with nothing before or after it. -/
def entirePureCall (t : String) : Bool :=
  let s := pyStripL t.data
  entireMatchPat patCurlyAngle s || entireMatchPat patParenAngle s ||
    entireMatchPat patParenClosing s || entireMatchPat patBareParen s ||
    entireMatchPat patBareCurly s

/-- An end-anchored `re.match` agrees with the full-anchored spec reading. -/
theorem reEnd_eq_entire (p : Pat) (hne : p.close ≠ []) (hnl : '\n' ∉ p.close) (s : List Char) :
    reEnd p s = entireMatchPat p s := by
  unfold reEnd entireMatchPat
  cases hdp : dropPre p.pre s with
  | none => simp [hdp]
  | some s1 =>
    simp only [hdp]
    by_cases hw : s1.takeWhile isPyWord = []
    · simp [hw]
    · simp only [if_neg hw]
      cases hs2 : s1.drop (s1.takeWhile isPyWord).length with
      | nil => simp [hs2]
      | cons c s3 =>
        simp only [hs2]
        rw [lazyStarCloseEnd_isSome p.close hne hnl s3]

/-- An anchor-free `re.match` agrees with the head-anchored spec reading. -/
theorem reHead_isSome_eq_headMatch (p : Pat) (s : List Char) :
    (reHead p s).isSome = headMatchPat p s := by
  unfold reHead headMatchPat
  cases hdp : dropPre p.pre s with
  | none => simp [hdp]
  | some s1 =>
    simp only [hdp]
    by_cases hw : s1.takeWhile isPyWord = []
    · simp [hw]
    · simp only [if_neg hw]
      cases hs2 : s1.drop (s1.takeWhile isPyWord).length with
      | nil => simp [hs2]
      | cons c s3 =>
        simp only [hs2]
        by_cases hc : c = p.openc
        · simp [hc, lazyStarClose_isSome p.close s3]
        · simp [hc]

/-- Claim C7, counterexample: `function=search(x) and more prose` is not an
entire-text match of any call pattern — it carries trailing prose — yet the
pure-call test accepts it, because the two bare patterns of lines 261-262
lack the `$` anchor. -/
theorem claim_C7_counterexample :
    isJustFunctionText "function=search(x) and more prose" = true ∧
    entirePureCall "function=search(x) and more prose" = false := by
  refine ⟨by decide, by decide⟩

/-- Claim C7 as amended: the pure-call test accepts exactly the texts whose
trimmed form either entirely matches one of the three angle-bracket
patterns, or merely begins with a bare-form pattern (`function=name(...)`
or `function=name\x7b...\x7d`), trailing content permitted for the latter
two. -/
theorem claim_C7_theorem (t : String) :
    isJustFunctionText t =
      (entireMatchPat patCurlyAngle (pyStripL t.data) ||
       entireMatchPat patParenAngle (pyStripL t.data) ||
       entireMatchPat patParenClosing (pyStripL t.data) ||
       headMatchPat patBareParen (pyStripL t.data) ||
       headMatchPat patBareCurly (pyStripL t.data)) := by
  unfold isJustFunctionText
  simp only [reEnd_eq_entire patCurlyAngle (by decide) (by decide),
    reEnd_eq_entire patParenAngle (by decide) (by decide),
    reEnd_eq_entire patParenClosing (by decide) (by decide),
    reHead_isSome_eq_headMatch patBareParen,
    reHead_isSome_eq_headMatch patBareCurly]
